import Mathlib

/-!
Formal model of the two automation scripts in `scrap.js`: a keyword
scraper that collects tweet detail URLs, and a reply dispatcher that
posts canned replies to each collected URL.  Browser interaction is
modelled by explicit environments recording what the page would have
shown at each step; file system contents are modelled by explicit
structures.  All definitions are translated from the source.
-/

/-- Whitespace characters recognised by our model of the JavaScript
string `trim` method. -/
def jsWs (c : Char) : Bool :=
  c == ' ' || c == '\t' || c == '\n' || c == '\r' || c == '\x0b' || c == '\x0c'

/-- Model of JavaScript `trim`: drop whitespace from both ends. -/
def jsTrim (s : String) : String :=
  ⟨((s.data.dropWhile jsWs).reverse.dropWhile jsWs).reverse⟩

/-- ASCII lower-casing of one character. -/
def asciiLower (c : Char) : Char :=
  if 'A' ≤ c ∧ c ≤ 'Z' then Char.ofNat (c.toNat + 32) else c

/-- Model of JavaScript `toLowerCase` on the ASCII range. -/
def jsToLower (s : String) : String :=
  ⟨s.data.map asciiLower⟩

/-- Split a character list at every newline character. -/
def splitNl : List Char → List (List Char)
  | [] => [[]]
  | c :: rest =>
      let r := splitNl rest
      if c = '\n' then [] :: r
      else
        match r with
        | [] => [[c]]
        | h :: t => (c :: h) :: t

/-- Model of JavaScript `split` on the newline character. -/
def jsSplitNl (s : String) : List String :=
  (splitNl s.data).map (fun l => ⟨l⟩)

/-- Model of reading a newline-delimited file in the dispatcher
(`scrap.js` lines 222-223): split on newlines, trim each line, keep
only truthy (non-empty) lines. -/
def parseLines (s : String) : List String :=
  ((jsSplitNl s).map jsTrim).filter (fun l => l != "")

/-- Strip `ps` as a leading segment of `cs`, returning the remainder
when `ps` is in fact a leading segment. -/
def stripLead : List Char → List Char → Option (List Char)
  | [], cs => some cs
  | _ :: _, [] => none
  | p :: ps, c :: cs => if c = p then stripLead ps cs else none

/-- The fixed leading part of a canonical tweet detail URL. -/
def tweetUrlHead : List Char := "https://x.com/".data

/-- The literal `/status/` segment of a canonical tweet detail URL. -/
def statusSeg : List Char := "/status/".data

/-- Model of the scraper filter regex (`scrap.js` line 122), anchored on
both sides: `https://x.com/`, then one or more characters other than
a slash, then `/status/`, then one or more digits. -/
def matchesTweetUrl (s : String) : Bool :=
  match stripLead tweetUrlHead s.data with
  | none => false
  | some rest =>
      let user := rest.takeWhile (fun c => c != '/')
      let tail := rest.dropWhile (fun c => c != '/')
      if user.isEmpty then false
      else
        match stripLead statusSeg tail with
        | none => false
        | some ds => !ds.isEmpty && ds.all Char.isDigit

/-- The literal searched for by the dispatcher tweet-id regex. -/
def statusLit : List Char := "status/".data

/-- One attempted match of the dispatcher regex `status\/(\d+)` at the
start of `cs`: the literal `status/` followed by a maximal non-empty
run of digits. -/
def matchStatusAt (cs : List Char) : Option (List Char) :=
  (stripLead statusLit cs).bind (fun rest =>
    if (rest.takeWhile Char.isDigit).isEmpty then none
    else some (rest.takeWhile Char.isDigit))

/-- Model of `tweetUrl.match(/status\/(\d+)/)` (`scrap.js` line 301):
search left to right for the first occurrence of `status/` followed by
at least one digit, returning the captured digit run. -/
def findStatusId : List Char → Option (List Char)
  | [] => none
  | c :: rest =>
      match matchStatusAt (c :: rest) with
      | some ds => some ds
      | none => findStatusId rest

/-- The fixed per-keyword quota (`scrap.js` line 22). -/
def maxTweetsPerKeyword : Nat := 100

/-- The fixed scroll-stall limit (`scrap.js` line 113). -/
def maxScrollTries : Nat := 20

/-- Deterministic environment for one keyword scrape: whether the
navigation to the search page succeeds, and for each loop iteration the
anchor `href` values rendered on the page and the scroll height
measured after scrolling. -/
structure ScrapeEnv where
  navOk : Bool
  hrefs : Nat → List String
  height : Nat → Nat
  initHeight : Nat

/-- State of the scraper collection loop: the URL set in insertion
order, the last measured scroll height, and the stall counter. -/
structure ScrapeState where
  collected : List String
  lastHeight : Nat
  tries : Nat
deriving DecidableEq

/-- Model of `Set.add`: append the element unless already present. -/
def insertUnique (acc : List String) (u : String) : List String :=
  if u ∈ acc then acc else acc ++ [u]

/-- Model of `urls.forEach(url => set.add(url))`. -/
def addUnique (acc : List String) (us : List String) : List String :=
  us.foldl insertUnique acc

/-- Model of `Array.from(new Set(us))`: deduplicate keeping the first
occurrence of each element. -/
def jsSetOfList (us : List String) : List String :=
  addUnique [] us

/-- Model of the per-iteration page evaluation (`scrap.js` lines
117-125): the rendered hrefs filtered by the canonical pattern and
deduplicated. -/
def snapshotUrls (hs : List String) : List String :=
  jsSetOfList (hs.filter matchesTweetUrl)

/-- Model of the scraper `while` loop (`scrap.js` lines 115-144), with
explicit fuel; `none` means the fuel ran out before the loop exited on
its own.  Each iteration collects the rendered URLs, breaks early when
the quota is reached, and otherwise updates the stall counter from the
newly measured scroll height. -/
def scrapeLoop (env : ScrapeEnv) : Nat → Nat → ScrapeState → Option ScrapeState
  | 0, _, _ => none
  | fuel + 1, i, st =>
      if st.collected.length < maxTweetsPerKeyword ∧ st.tries < maxScrollTries then
        if maxTweetsPerKeyword ≤ (addUnique st.collected (snapshotUrls (env.hrefs i))).length then
          some ⟨addUnique st.collected (snapshotUrls (env.hrefs i)), st.lastHeight, st.tries⟩
        else
          if env.height i = st.lastHeight then
            scrapeLoop env fuel (i + 1)
              ⟨addUnique st.collected (snapshotUrls (env.hrefs i)), st.lastHeight, st.tries + 1⟩
          else
            scrapeLoop env fuel (i + 1)
              ⟨addUnique st.collected (snapshotUrls (env.hrefs i)), env.height i, 0⟩
      else some st

/-- Model of `scrapeUrlsForKeyword` (`scrap.js` lines 92-153): on
navigation failure return the empty list, otherwise run the collection
loop from an empty set and truncate the result to the quota. -/
def scrapeUrlsForKeyword (env : ScrapeEnv) (fuel : Nat) : Option (List String) :=
  if env.navOk then
    (scrapeLoop env fuel 0 ⟨[], env.initHeight, 0⟩).map
      (fun st => st.collected.take maxTweetsPerKeyword)
  else some []

/-- Model of the keyword loop in the scraper `main` (`scrap.js` lines
161-164): accumulate each keyword result into the global set. -/
def scrapeMainLoop : List ScrapeEnv → Nat → List String → Option (List String)
  | [], _, acc => some acc
  | e :: rest, fuel, acc =>
      match scrapeUrlsForKeyword e fuel with
      | none => none
      | some urls => scrapeMainLoop rest fuel (addUnique acc urls)

/-- The global accumulated URL set of the scraper `main`, in insertion
order. -/
def scrapeMainAcc (envs : List ScrapeEnv) (fuel : Nat) : Option (List String) :=
  scrapeMainLoop envs fuel []

/-- Model of the scraper `main` output (`scrap.js` lines 166-172):
`some lines` when the output file is written with exactly `lines` (the
file content being the lines joined by newlines), `none` when no file
is written. -/
def scrapeMain (envs : List ScrapeEnv) (fuel : Nat) : Option (Option (List String)) :=
  (scrapeMainAcc envs fuel).map (fun acc => if acc.isEmpty then none else some acc)

/-- A candidate element inside the active dialog, as inspected by
`clickReplyButtonByLabel` (`scrap.js` lines 275-298): its text content,
its `aria-label` attribute, its computed `visibility` and `display`
style values, its `disabled` property, and its `aria-disabled`
attribute (`none` when the attribute is absent). -/
structure Candidate where
  textContent : Option String
  ariaLabel : Option String
  visibility : String
  display : String
  disabled : Bool
  ariaDisabled : Option String
deriving DecidableEq

/-- The candidate text as computed at `scrap.js` line 289: trimmed and
lower-cased text content, or the empty string when there is none. -/
def candText (b : Candidate) : String :=
  match b.textContent with
  | none => ""
  | some t => jsToLower (jsTrim t)

/-- The candidate accessible label as computed at `scrap.js` line 290. -/
def candLabel (b : Candidate) : String :=
  match b.ariaLabel with
  | none => ""
  | some t => jsToLower (jsTrim t)

/-- Model of `isVisibleAndEnabled` (`scrap.js` lines 277-286). -/
def isVisibleAndEnabled (b : Candidate) : Bool :=
  b.visibility != "hidden" && b.display != "none" && !b.disabled &&
    (b.ariaDisabled.isNone || b.ariaDisabled == some ("false"))

/-- The test applied to each candidate at `scrap.js` line 291. -/
def matchesReply (b : Candidate) : Bool :=
  (candText b == "reply" || candLabel b == "reply") && isVisibleAndEnabled b

/-- The candidate loop of `clickReplyButtonByLabel` (`scrap.js` lines
288-295): the first matching candidate, in document order, is clicked. -/
def findReplyButton : List Candidate → Option Candidate
  | [] => none
  | b :: rest => if matchesReply b then some b else findReplyButton rest

/-- Model of `clickReplyButtonByLabel`: `true` exactly when some
candidate was clicked. -/
def clickReplyButtonByLabel (cands : List Candidate) : Bool :=
  (findReplyButton cands).isSome

/-- Deterministic environment for one reply attempt: whether the
navigation succeeds (as opposed to throwing), whether the article
element appears within its timeout, whether the reply control and the
text area appear within their timeouts (a timeout throws and is caught
by the outer handler), and the dialog candidates inspected by the
submit-click heuristic. -/
structure ReplyEnv where
  gotoOk : Bool
  articleOk : Bool
  replyBtnOk : Bool
  textareaOk : Bool
  candidates : List Candidate

/-- Outcome of one reply attempt: the boolean returned by
`replyToTweet` and whether a new page was opened for the item. -/
structure ReplyOutcome where
  success : Bool
  pageOpened : Bool
deriving DecidableEq

/-- Model of `replyToTweet` (`scrap.js` lines 300-363).  The tweet id
is extracted first; on failure the function returns `false` before any
page is created.  Every later failure path (navigation error, article
timeout, reply-control or text-area timeout, submit control not found)
closes the page and returns `false`; otherwise the result is the
outcome of the submit-click heuristic. -/
def replyToTweet (tweetUrl : String) (env : ReplyEnv) : ReplyOutcome :=
  match findStatusId tweetUrl.data with
  | none => ⟨false, false⟩
  | some _ =>
      if env.gotoOk = false then ⟨false, true⟩
      else if env.articleOk = false then ⟨false, true⟩
      else if env.replyBtnOk = false then ⟨false, true⟩
      else if env.textareaOk = false then ⟨false, true⟩
      else ⟨clickReplyButtonByLabel env.candidates, true⟩

/-- Model of the dispatcher `main` loop (`scrap.js` lines 368-378):
process the items strictly sequentially, recording one boolean outcome
per item; `i` is the index of the first item, used to address the
per-item environment. -/
def dispatchAll : List String → (Nat → ReplyEnv) → Nat → List Bool
  | [], _, _ => []
  | u :: rest, envs, i =>
      (replyToTweet u (envs i)).success :: dispatchAll rest envs (i + 1)

/-- The two fields read from `auth.json`; `none` models an absent
field. -/
structure AuthData where
  auth_token : Option String
  ct0 : Option String
deriving DecidableEq

/-- The file system as seen at startup: each required file is either
absent (`none`) or present with its parsed content. -/
structure FS where
  auth : Option AuthData
  tweetsFile : Option String
  commentsFile : Option String

/-- JavaScript truthiness of a possibly-absent string field: an absent
field and the empty string are falsy. -/
def jsTruthy : Option String → Bool
  | none => false
  | some s => s != ""

/-- Model of the scraper startup checks (`scrap.js` lines 42-50):
missing `auth.json`, or a falsy `auth_token` or `ct0` field, exits
with code 1. -/
def scraperStartup (fs : FS) : Except Nat AuthData :=
  match fs.auth with
  | none => .error 1
  | some a =>
      if !jsTruthy a.auth_token || !jsTruthy a.ct0 then .error 1 else .ok a

/-- Observable result of a scraper process run: the exit code, whether
a browser was launched, and whether the output file was written. -/
structure RunResult where
  exitCode : Nat
  browserAcquired : Bool
  outputWritten : Bool
deriving DecidableEq

/-- Model of the whole scraper process: the startup checks run before
any browser resource is acquired or any file is written; on startup
success the browser is launched, the keywords are scraped and the exit
code is 0. -/
def scraperRun (fs : FS) (envs : List ScrapeEnv) (fuel : Nat) : Option RunResult :=
  match scraperStartup fs with
  | .error c => some ⟨c, false, false⟩
  | .ok _ => (scrapeMain envs fuel).map (fun out => ⟨0, true, out.isSome⟩)

/-- Model of the dispatcher startup checks (`scrap.js` lines 210-228):
a missing `tweets_to_reply.txt`, `comments.txt` or `auth.json`, or a
falsy `auth_token` or `ct0`, exits with code 1. -/
def dispatcherStartup (fs : FS) : Except Nat (String × String × AuthData) :=
  match fs.tweetsFile with
  | none => .error 1
  | some tc =>
      match fs.commentsFile with
      | none => .error 1
      | some cc =>
          match fs.auth with
          | none => .error 1
          | some a =>
              if !jsTruthy a.auth_token || !jsTruthy a.ct0 then .error 1
              else .ok (tc, cc, a)

/-- Observable result of a dispatcher process run: the exit code,
whether a browser was launched, and the per-item outcomes. -/
structure DispatchRun where
  exitCode : Nat
  browserAcquired : Bool
  outcomes : List Bool
deriving DecidableEq

/-- Model of the whole dispatcher process (`scrap.js` lines 365-382):
startup checks, then the browser, then one reply attempt per parsed
input line. -/
def dispatcherRun (fs : FS) (envs : Nat → ReplyEnv) : DispatchRun :=
  match dispatcherStartup fs with
  | .error c => ⟨c, false, []⟩
  | .ok (tc, _, _) => ⟨0, true, dispatchAll (parseLines tc) envs 0⟩

/-- Model of the inter-item delay computation
`Math.floor(Math.random() * 7000) + 5000` (`scrap.js` line 375), with
the random draw `r` made explicit. -/
def replyDelay (r : ℚ) : ℤ :=
  ⌊r * 7000⌋ + 5000

/-- Model of `getCannedReply` (`scrap.js` lines 233-235), with the
random draw `r` made explicit; out-of-range indexing yields `none`
(JavaScript `undefined`). -/
def getCannedReply (pool : List String) (r : ℚ) : Option String :=
  pool.get? (Int.toNat ⌊r * (pool.length : ℚ)⌋)

/-- A concrete scrape environment whose page always shows one canonical
tweet link and whose scroll height never changes. -/
def envOne : ScrapeEnv :=
  ⟨true, fun _ => ["https://x.com/alice/status/123"], fun _ => 5, 5⟩

/-- The loop state reached by `envOne` after its stall-limited run. -/
def stOne : ScrapeState := ⟨["https://x.com/alice/status/123"], 5, 20⟩

/-- A concrete scrape environment showing no tweets whose scroll height
changes at every iteration. -/
def envStall : ScrapeEnv := ⟨true, fun _ => [], fun i => i + 1, 0⟩

/-- A concrete scrape environment showing no tweets whose scroll height
never changes. -/
def envConst : ScrapeEnv := ⟨true, fun _ => [], fun _ => 3, 3⟩

/-- The canonical-pattern invariant of the scraper URL collections:
every member matches the detail-URL pattern and there are no
duplicates. -/
def GoodList (l : List String) : Prop :=
  (∀ u ∈ l, matchesTweetUrl u = true) ∧ l.Nodup

/-- The submit-control condition as worded by the specification: the
visible text or the accessible label, trimmed and case-normalised,
equals `reply`, and the element is visible, not disabled, and not
marked disabled for accessibility. -/
def matchesReplySpec (b : Candidate) : Prop :=
  (candText b = "reply" ∨ candLabel b = "reply") ∧
    b.visibility ≠ "hidden" ∧ b.display ≠ "none" ∧ b.disabled = false ∧
    (b.ariaDisabled = none ∨ b.ariaDisabled = some ("false"))

/-- The URL contains the substring `status/` followed by one or more
digits: the condition under which the dispatcher tweet-id regex can
match. -/
def ContainsStatusId (s : String) : Prop :=
  ∃ pre ds suf, s.data = pre ++ (statusLit ++ (ds ++ suf)) ∧ ds ≠ [] ∧
    ∀ c ∈ ds, c.isDigit = true

instance (b : Candidate) : Decidable (matchesReplySpec b) := by
  unfold matchesReplySpec
  infer_instance

/-- A dialog candidate that matches the reply label but is disabled. -/
def cBad : Candidate := ⟨some (" Reply "), none, "visible", "block", true, none⟩

/-- A dialog candidate that matches the reply label and is enabled. -/
def cGood : Candidate := ⟨some ("Reply"), none, "visible", "flex", false, some ("false")⟩

/-- A concrete candidate list whose first match is its second entry. -/
def candsW : List Candidate := [cBad, cGood]

/-- A concrete well-formed tweet URL. -/
def urlReply : String := "https://x.com/a/status/9"

/-- A concrete malformed URL with no tweet id. -/
def urlBad : String := "https://example.com/items/42"

/-- A reply environment in which every wait succeeds and the dialog
shows `candsW`. -/
def envReply : ReplyEnv := ⟨true, true, true, true, candsW⟩

/-- A file system with every required file missing. -/
def fsBad : FS := ⟨none, none, none⟩

/-- A file system with all required files present and well-formed. -/
def fsGood : FS := ⟨some ⟨some ("tok"), some ("c0")⟩, some (""), some ("hi")⟩

/-- A constant dispatcher environment. -/
def denvNull : Nat → ReplyEnv := fun _ => ⟨true, true, true, true, []⟩

theorem mem_insertUnique {acc : List String} {v u : String} :
    u ∈ insertUnique acc v ↔ u ∈ acc ∨ u = v := by
  by_cases hv : v ∈ acc
  · simp only [insertUnique, if_pos hv]
    constructor
    · exact fun h => Or.inl h
    · rintro (h | rfl)
      · exact h
      · exact hv
  · simp [insertUnique, if_neg hv, List.mem_append]

theorem nodup_insertUnique {acc : List String} {v : String} (h : acc.Nodup) :
    (insertUnique acc v).Nodup := by
  by_cases hv : v ∈ acc
  · simpa only [insertUnique, if_pos hv] using h
  · simp only [insertUnique, if_neg hv]
    rw [List.nodup_append]
    refine ⟨h, List.nodup_singleton v, ?_⟩
    intro a ha hb
    rw [List.mem_singleton] at hb
    subst hb
    exact hv ha

theorem mem_addUnique {us : List String} :
    ∀ {acc u}, u ∈ addUnique acc us → u ∈ acc ∨ u ∈ us := by
  induction us with
  | nil => intro acc u h; exact Or.inl h
  | cons v vs ih =>
      intro acc u h
      have h' : u ∈ addUnique (insertUnique acc v) vs := h
      rcases ih h' with h1 | h1
      · rcases mem_insertUnique.mp h1 with h2 | h2
        · exact Or.inl h2
        · exact Or.inr (by simp [h2])
      · exact Or.inr (List.mem_cons_of_mem _ h1)

theorem nodup_addUnique {us : List String} :
    ∀ {acc}, acc.Nodup → (addUnique acc us).Nodup := by
  induction us with
  | nil => intro acc h; exact h
  | cons v vs ih => intro acc h; exact ih (nodup_insertUnique h)

theorem goodList_addUnique {acc us : List String} (h : GoodList acc)
    (hus : ∀ u ∈ us, matchesTweetUrl u = true) : GoodList (addUnique acc us) := by
  refine ⟨?_, nodup_addUnique h.2⟩
  intro u hu
  rcases mem_addUnique hu with h1 | h1
  · exact h.1 u h1
  · exact hus u h1

theorem mem_snapshotUrls {hs : List String} {u : String}
    (h : u ∈ snapshotUrls hs) : matchesTweetUrl u = true := by
  have h' : u ∈ addUnique [] (hs.filter matchesTweetUrl) := h
  rcases mem_addUnique h' with h1 | h1
  · cases h1
  · exact (List.mem_filter.mp h1).2

theorem scrapeLoop_good (env : ScrapeEnv) :
    ∀ fuel i st st', GoodList st.collected →
      scrapeLoop env fuel i st = some st' → GoodList st'.collected := by
  intro fuel
  induction fuel with
  | zero => intro i st st' _ h; simp [scrapeLoop] at h
  | succ n ih =>
      intro i st st' hg h
      rw [scrapeLoop] at h
      have hgood : GoodList (addUnique st.collected (snapshotUrls (env.hrefs i))) :=
        goodList_addUnique hg (fun u hu => mem_snapshotUrls hu)
      split at h
      · split at h
        · cases h
          exact hgood
        · split at h
          · exact ih _ _ _ hgood h
          · exact ih _ _ _ hgood h
      · cases h
        exact hg

theorem scrapeUrlsForKeyword_good {env : ScrapeEnv} {fuel : Nat} {l : List String}
    (h : scrapeUrlsForKeyword env fuel = some l) :
    (∀ u ∈ l, matchesTweetUrl u = true) ∧ l.Nodup := by
  unfold scrapeUrlsForKeyword at h
  split at h
  · rcases Option.map_eq_some'.mp h with ⟨st, hst, rfl⟩
    have hg := scrapeLoop_good env fuel 0 _ st ⟨by simp, List.nodup_nil⟩ hst
    refine ⟨fun u hu => hg.1 u (List.take_subset _ _ hu), ?_⟩
    exact hg.2.sublist (List.take_sublist _ _)
  · cases h
    simp

theorem scrapeMainLoop_good :
    ∀ (envs : List ScrapeEnv) (fuel : Nat) (acc acc' : List String), GoodList acc →
      scrapeMainLoop envs fuel acc = some acc' → GoodList acc' := by
  intro envs
  induction envs with
  | nil =>
      intro fuel acc acc' hg h
      cases h
      exact hg
  | cons e rest ih =>
      intro fuel acc acc' hg h
      rw [scrapeMainLoop] at h
      cases hek : scrapeUrlsForKeyword e fuel with
      | none => rw [hek] at h; cases h
      | some urls =>
          rw [hek] at h
          exact ih fuel _ acc' (goodList_addUnique hg (scrapeUrlsForKeyword_good hek).1) h

theorem scrapeUrlsForKeyword_navOk (env : ScrapeEnv) (h : env.navOk = true) (fuel : Nat) :
    scrapeUrlsForKeyword env fuel =
      (scrapeLoop env fuel 0 ⟨[], env.initHeight, 0⟩).map
        (fun st => st.collected.take maxTweetsPerKeyword) := by
  unfold scrapeUrlsForKeyword
  rw [h]
  simp

theorem matchesTweetUrl_ne_empty {u : String} (h : matchesTweetUrl u = true) :
    u ≠ "" := by
  intro h0
  subst h0
  exact absurd h (by decide)

/-- C1: for every run of the scraper, the URL list written to the
output file contains only strings matching the canonical detail-URL
pattern `https://x.com/<user>/status/<digits>`, contains no duplicate
entries, and contains no blank entries. -/
theorem output_list_canonical (envs : List ScrapeEnv) (fuel : Nat) (l : List String)
    (h : scrapeMain envs fuel = some (some l)) :
    (∀ u ∈ l, matchesTweetUrl u = true ∧ u ≠ "") ∧ l.Nodup := by
  unfold scrapeMain at h
  rcases Option.map_eq_some'.mp h with ⟨acc, hacc, hif⟩
  have hg := scrapeMainLoop_good envs fuel [] acc ⟨by simp, List.nodup_nil⟩ hacc
  by_cases he : acc.isEmpty
  · rw [if_pos he] at hif
    cases hif
  · rw [if_neg he] at hif
    cases hif
    exact ⟨fun u hu => ⟨hg.1 u hu, matchesTweetUrl_ne_empty (hg.1 u hu)⟩, hg.2⟩

/-- C1 witness: a run over one keyword environment. -/
theorem output_list_canonical_witness :
    (∀ u ∈ ["https://x.com/alice/status/123"], matchesTweetUrl u = true ∧ u ≠ "") ∧
      List.Nodup ["https://x.com/alice/status/123"] :=
  output_list_canonical [envOne] 21 _ (by decide)

/-- C2: every per-keyword result has length at most the quota of 100,
is the first-100 truncation of the insertion-ordered collection (hence
preserves insertion order as a prefix of it), and has length exactly
100 whenever more than the quota was accumulated. -/
theorem keyword_quota (env : ScrapeEnv) (fuel : Nat) :
    (∀ l, scrapeUrlsForKeyword env fuel = some l → l.length ≤ maxTweetsPerKeyword) ∧
    (∀ st, env.navOk = true →
      scrapeLoop env fuel 0 ⟨[], env.initHeight, 0⟩ = some st →
      scrapeUrlsForKeyword env fuel = some (st.collected.take maxTweetsPerKeyword) ∧
      (∃ rest, st.collected = st.collected.take maxTweetsPerKeyword ++ rest) ∧
      (maxTweetsPerKeyword ≤ st.collected.length →
        (st.collected.take maxTweetsPerKeyword).length = maxTweetsPerKeyword)) := by
  constructor
  · intro l h
    unfold scrapeUrlsForKeyword at h
    split at h
    · rcases Option.map_eq_some'.mp h with ⟨st, _, rfl⟩
      simp [List.length_take]
    · cases h
      simp
  · intro st hnav hst
    refine ⟨?_, ⟨st.collected.drop maxTweetsPerKeyword, (List.take_append_drop _ _).symm⟩, ?_⟩
    · simp [scrapeUrlsForKeyword, hnav, hst]
    · intro hlen
      simp only [List.length_take]
      omega

/-- C2 witness: the stall-limited run of `envOne`. -/
theorem keyword_quota_witness :
    scrapeUrlsForKeyword envOne 21 = some (stOne.collected.take maxTweetsPerKeyword) ∧
    (∃ rest, stOne.collected = stOne.collected.take maxTweetsPerKeyword ++ rest) ∧
    (stOne.collected.take maxTweetsPerKeyword).length ≤ maxTweetsPerKeyword := by
  have h := (keyword_quota envOne 21).2 stOne rfl (by decide)
  exact ⟨h.1, h.2.1, (keyword_quota envOne 21).1 _ h.1⟩

theorem scrapeLoop_envStall : ∀ n i, scrapeLoop envStall n i ⟨[], i, 0⟩ = none := by
  intro n
  induction n with
  | zero => intro i; rfl
  | succ m ih =>
      intro i
      have hstep : scrapeLoop envStall (m + 1) i ⟨[], i, 0⟩ =
          scrapeLoop envStall m (i + 1) ⟨[], i + 1, 0⟩ := by
        rw [scrapeLoop]
        simp [envStall, snapshotUrls, jsSetOfList, addUnique, maxTweetsPerKeyword,
          maxScrollTries, Nat.succ_ne_self]
      rw [hstep]
      exact ih (i + 1)

/-- C3 counterexample: there is a scroll-height sequence (strictly
increasing heights with no tweets rendered) on which the collection
loop does not terminate within any number of iterations, so the loop
is not bounded for every sequence of measured scroll heights. -/
theorem stall_unbounded_cex :
    ¬ ∀ env : ScrapeEnv, ∃ n, (scrapeUrlsForKeyword env n).isSome = true := by
  intro h
  rcases h envStall with ⟨n, hn⟩
  have h0 : scrapeLoop envStall n 0 ⟨[], envStall.initHeight, 0⟩ = none :=
    scrapeLoop_envStall n 0
  have h1 : scrapeUrlsForKeyword envStall n = none := by
    rw [scrapeUrlsForKeyword_navOk envStall rfl n, h0]
    rfl
  rw [h1] at hn
  cases hn

theorem scrapeLoop_constHeight (env : ScrapeEnv)
    (hh : ∀ j, env.height j = env.initHeight) :
    ∀ fuel i st, st.lastHeight = env.initHeight → st.tries ≤ maxScrollTries →
      maxScrollTries + 1 ≤ st.tries + fuel →
      (scrapeLoop env fuel i st).isSome = true := by
  intro fuel
  induction fuel with
  | zero =>
      intro i st _ h2 h3
      exfalso
      omega
  | succ n ih =>
      intro i st h1 h2 h3
      rw [scrapeLoop]
      by_cases hc : st.collected.length < maxTweetsPerKeyword ∧ st.tries < maxScrollTries
      · rw [if_pos hc]
        by_cases hq : maxTweetsPerKeyword ≤
            (addUnique st.collected (snapshotUrls (env.hrefs i))).length
        · rw [if_pos hq]
          rfl
        · rw [if_neg hq, if_pos (by rw [hh i, h1])]
          refine ih (i + 1) _ h1 ?_ ?_
          · show st.tries + 1 ≤ maxScrollTries
            omega
          · show maxScrollTries + 1 ≤ st.tries + 1 + n
            omega
      · rw [if_neg hc]
        rfl

/-- C3 amended: the stall counter is incremented when the scroll
height is unchanged and reset when it changes, and whenever the
measured scroll height never changes the loop terminates within the
stall limit (21 units of fuel suffice); but for height sequences that
keep changing while fewer than 100 URLs accumulate the number of
iterations is not bounded. -/
theorem stall_terminates (env : ScrapeEnv)
    (hh : ∀ j, env.height j = env.initHeight) :
    (scrapeUrlsForKeyword env (maxScrollTries + 1)).isSome = true := by
  by_cases hn : env.navOk = true
  · rw [scrapeUrlsForKeyword_navOk env hn _]
    have h := scrapeLoop_constHeight env hh (maxScrollTries + 1) 0
      ⟨[], env.initHeight, 0⟩ rfl
      (by show (0 : Nat) ≤ maxScrollTries; omega)
      (by show maxScrollTries + 1 ≤ 0 + (maxScrollTries + 1); omega)
    rcases Option.isSome_iff_exists.mp h with ⟨st, hst⟩
    rw [hst]
    rfl
  · unfold scrapeUrlsForKeyword
    rw [if_neg hn]
    rfl

/-- C3 amended witness: a constant-height environment. -/
theorem stall_terminates_witness :
    (scrapeUrlsForKeyword envConst (maxScrollTries + 1)).isSome = true :=
  stall_terminates envConst (fun _ => rfl)

/-- C7: when zero URLs are collected no output file is written: the
empty keyword list yields no write, and any written list is
non-empty. -/
theorem no_file_when_empty (fuel : Nat) :
    scrapeMain [] fuel = some none ∧
    ∀ envs l, scrapeMain envs fuel = some (some l) → l ≠ [] := by
  constructor
  · rfl
  · intro envs l h
    unfold scrapeMain at h
    rcases Option.map_eq_some'.mp h with ⟨acc, -, hif⟩
    by_cases he : acc.isEmpty
    · rw [if_pos he] at hif
      cases hif
    · rw [if_neg he] at hif
      cases hif
      intro h0
      subst h0
      exact he rfl

/-- C7 witness: the empty keyword list writes nothing, and a run that
collects one URL writes a non-empty list. -/
theorem no_file_when_empty_witness :
    scrapeMain [] 21 = some none ∧ ["https://x.com/alice/status/123"] ≠ [] :=
  ⟨(no_file_when_empty 21).1, (no_file_when_empty 21).2 [envOne] _ (by decide)⟩

theorem stripLead_sound :
    ∀ (ps cs r : List Char), stripLead ps cs = some r → cs = ps ++ r := by
  intro ps
  induction ps with
  | nil =>
      intro cs r h
      cases h
      rfl
  | cons p ps ih =>
      intro cs r h
      cases cs with
      | nil => cases h
      | cons c cs' =>
          rw [stripLead] at h
          split at h
          · rename_i hc
            subst hc
            rw [List.cons_append]
            exact congrArg _ (ih cs' r h)
          · cases h

theorem stripLead_append :
    ∀ (ps r : List Char), stripLead ps (ps ++ r) = some r := by
  intro ps r
  induction ps with
  | nil => rfl
  | cons p ps ih => simp [stripLead, ih]

theorem matchStatusAt_none (cs : List Char) (hs : stripLead statusLit cs = none) :
    matchStatusAt cs = none := by
  unfold matchStatusAt
  rw [hs]
  rfl

theorem matchStatusAt_eq (cs rest : List Char) (hs : stripLead statusLit cs = some rest) :
    matchStatusAt cs =
      if (rest.takeWhile Char.isDigit).isEmpty then none
      else some (rest.takeWhile Char.isDigit) := by
  unfold matchStatusAt
  rw [hs]
  rfl

theorem matchStatusAt_sound (cs ds : List Char) (h : matchStatusAt cs = some ds) :
    ∃ suf, cs = statusLit ++ (ds ++ suf) ∧ ds ≠ [] ∧ ∀ c ∈ ds, c.isDigit = true := by
  cases hs : stripLead statusLit cs with
  | none => rw [matchStatusAt_none cs hs] at h; cases h
  | some rest =>
      rw [matchStatusAt_eq cs rest hs] at h
      by_cases he : (rest.takeWhile Char.isDigit).isEmpty
      · rw [if_pos he] at h
        cases h
      · rw [if_neg he] at h
        cases h
        refine ⟨rest.dropWhile Char.isDigit, ?_, ?_, ?_⟩
        · rw [stripLead_sound _ _ _ hs, List.takeWhile_append_dropWhile]
        · intro h0
          rw [h0] at he
          exact he rfl
        · intro c hc
          exact List.mem_takeWhile_imp hc

theorem findStatusId_sound :
    ∀ (cs ds : List Char), findStatusId cs = some ds →
      ∃ pre suf, cs = pre ++ (statusLit ++ (ds ++ suf)) ∧ ds ≠ [] ∧
        ∀ c ∈ ds, c.isDigit = true := by
  intro cs
  induction cs with
  | nil => intro ds h; cases h
  | cons c rest ih =>
      intro ds h
      rw [findStatusId] at h
      cases hm : matchStatusAt (c :: rest) with
      | some d =>
          rw [hm] at h
          cases h
          rcases matchStatusAt_sound _ _ hm with ⟨suf, heq, hne, hdig⟩
          exact ⟨[], suf, heq, hne, hdig⟩
      | none =>
          rw [hm] at h
          rcases ih ds h with ⟨pre, suf, heq, hne, hdig⟩
          exact ⟨c :: pre, suf, by rw [heq, List.cons_append], hne, hdig⟩

theorem matchStatusAt_hit (ds suf : List Char) (hne : ds ≠ [])
    (hd : ∀ c ∈ ds, c.isDigit = true) :
    matchStatusAt (statusLit ++ (ds ++ suf)) ≠ none := by
  rw [matchStatusAt_eq _ (ds ++ suf) (stripLead_append _ _)]
  cases ds with
  | nil => exact absurd rfl hne
  | cons d ds' =>
      have hdd : d.isDigit = true := hd d (List.mem_cons_self _ _)
      rw [List.cons_append, List.takeWhile_cons_of_pos hdd]
      simp

theorem findStatusId_hit :
    ∀ (pre tail : List Char), matchStatusAt tail ≠ none →
      findStatusId (pre ++ tail) ≠ none := by
  intro pre
  induction pre with
  | nil =>
      intro tail h
      cases tail with
      | nil => exact absurd rfl h
      | cons c r =>
          rw [List.nil_append, findStatusId]
          cases hm : matchStatusAt (c :: r) with
          | some d => simp
          | none => exact absurd hm h
  | cons p pre' ih =>
      intro tail h
      rw [List.cons_append, findStatusId]
      cases hm : matchStatusAt (p :: (pre' ++ tail)) with
      | some d => simp
      | none => exact ih tail h

theorem containsStatusId_found {s : String} (h : ContainsStatusId s) :
    findStatusId s.data ≠ none := by
  rcases h with ⟨pre, ds, suf, heq, hne, hdig⟩
  rw [heq]
  exact findStatusId_hit pre _ (matchStatusAt_hit ds suf hne hdig)

/-- C9: a URL not containing `status/` followed by a digit makes
`replyToTweet` return `false` immediately, without opening a page. -/
theorem malformed_url_no_page (url : String) (env : ReplyEnv)
    (h : ¬ ContainsStatusId url) :
    replyToTweet url env = ⟨false, false⟩ := by
  cases hfs : findStatusId url.data with
  | some ds =>
      exfalso
      rcases findStatusId_sound _ _ hfs with ⟨pre, suf, heq, hne, hdig⟩
      exact h ⟨pre, ds, suf, heq, hne, hdig⟩
  | none => simp [replyToTweet, hfs]

/-- C9 witness: a URL with no tweet id. -/
theorem malformed_url_no_page_witness :
    replyToTweet urlBad envReply = ⟨false, false⟩ :=
  malformed_url_no_page urlBad envReply
    (fun hc => containsStatusId_found hc (by decide))

/-- C4: the dispatcher produces exactly one boolean outcome per item
and processes the whole list sequentially, whatever the per-item
environments (in particular when every item fails). -/
theorem dispatch_complete (urls : List String) (envs : Nat → ReplyEnv) (i : Nat) :
    (dispatchAll urls envs i).length = urls.length ∧
    ∀ k, (dispatchAll urls envs i).get? k =
      (urls.get? k).map (fun u => (replyToTweet u (envs (i + k))).success) := by
  induction urls generalizing i with
  | nil => exact ⟨rfl, fun k => by cases k <;> rfl⟩
  | cons u rest ih =>
      refine ⟨?_, ?_⟩
      · have := (ih (i + 1)).1
        simp [dispatchAll, this]
      · intro k
        cases k with
        | zero => simp [dispatchAll]
        | succ m =>
            have h := (ih (i + 1)).2 m
            have harith : i + 1 + m = i + (m + 1) := by omega
            rw [harith] at h
            exact h

theorem matchesReply_iff (b : Candidate) :
    matchesReply b = true ↔ matchesReplySpec b := by
  unfold matchesReply matchesReplySpec isVisibleAndEnabled
  simp only [Bool.and_eq_true, Bool.or_eq_true, beq_iff_eq, bne_iff_ne,
    Bool.not_eq_true', Option.isNone_iff_eq_none]
  tauto

theorem findReplyButton_isSome (cands : List Candidate) :
    (findReplyButton cands).isSome = true ↔ ∃ b, b ∈ cands ∧ matchesReply b = true := by
  induction cands with
  | nil => simp [findReplyButton]
  | cons b rest ih =>
      rw [findReplyButton]
      by_cases hb : matchesReply b = true
      · rw [if_pos hb]
        constructor
        · intro _
          exact ⟨b, List.mem_cons_self b rest, hb⟩
        · intro _
          rfl
      · rw [if_neg hb, ih]
        constructor
        · rintro ⟨x, hx, hmx⟩
          exact ⟨x, List.mem_cons_of_mem _ hx, hmx⟩
        · rintro ⟨x, hx, hmx⟩
          rcases List.mem_cons.mp hx with rfl | hx2
          · exact absurd hmx hb
          · exact ⟨x, hx2, hmx⟩

theorem findReplyButton_first :
    ∀ (cands : List Candidate) (b : Candidate), findReplyButton cands = some b →
      matchesReply b = true ∧
        ∃ pre suf, cands = pre ++ b :: suf ∧ ∀ x ∈ pre, matchesReply x = false := by
  intro cands
  induction cands with
  | nil => intro b h; cases h
  | cons c rest ih =>
      intro b h
      rw [findReplyButton] at h
      by_cases hc : matchesReply c = true
      · rw [if_pos hc] at h
        cases h
        exact ⟨hc, [], rest, rfl, by intro x hx; cases hx⟩
      · rw [if_neg hc] at h
        rcases ih b h with ⟨hm, pre, suf, heq, hpre⟩
        refine ⟨hm, c :: pre, suf, by rw [heq, List.cons_append], ?_⟩
        intro x hx
        rcases List.mem_cons.mp hx with rfl | hx2
        · exact Bool.not_eq_true _ ▸ Bool.eq_false_iff.mpr (fun hxx => hc hxx)
        · exact hpre x hx2

/-- C6: the submit-click heuristic returns `true` exactly when some
dialog candidate has visible text or accessible label equal to
`reply` (case-insensitively, after trimming) and is visible, enabled
and not accessibility-disabled; the element clicked is the first such
candidate in document order; and when every earlier step of a reply
attempt succeeds, the attempt returns exactly the heuristic result, so
a missing match is recorded as a failure. -/
theorem click_reply_spec (cands : List Candidate) :
    (clickReplyButtonByLabel cands = true ↔ ∃ b, b ∈ cands ∧ matchesReplySpec b) ∧
    (∀ b, findReplyButton cands = some b →
      matchesReplySpec b ∧
        ∃ pre suf, cands = pre ++ b :: suf ∧ ∀ x ∈ pre, ¬ matchesReplySpec x) ∧
    (∀ url env, findStatusId url.data ≠ none → env.gotoOk = true →
      env.articleOk = true → env.replyBtnOk = true → env.textareaOk = true →
      env.candidates = cands →
      (replyToTweet url env).success = clickReplyButtonByLabel cands) := by
  refine ⟨?_, ?_, ?_⟩
  · unfold clickReplyButtonByLabel
    rw [findReplyButton_isSome]
    constructor
    · rintro ⟨b, hb, hm⟩
      exact ⟨b, hb, (matchesReply_iff b).mp hm⟩
    · rintro ⟨b, hb, hm⟩
      exact ⟨b, hb, (matchesReply_iff b).mpr hm⟩
  · intro b hb
    rcases findReplyButton_first cands b hb with ⟨hm, pre, suf, heq, hpre⟩
    refine ⟨(matchesReply_iff b).mp hm, pre, suf, heq, ?_⟩
    intro x hx hspec
    have hfx := hpre x hx
    rw [(matchesReply_iff x).mpr hspec] at hfx
    cases hfx
  · intro url env hid hg ha hr ht hc
    cases hfs : findStatusId url.data with
    | none => exact absurd hfs hid
    | some d => simp [replyToTweet, hfs, hg, ha, hr, ht, hc]

/-- C6 witness: a disabled matching candidate followed by an enabled
one; the enabled one is the first match. -/
theorem click_reply_spec_witness :
    clickReplyButtonByLabel candsW = true ∧
    (matchesReplySpec cGood ∧
      ∃ pre suf, candsW = pre ++ cGood :: suf ∧ ∀ x ∈ pre, ¬ matchesReplySpec x) ∧
    (replyToTweet urlReply envReply).success = clickReplyButtonByLabel candsW := by
  have h := click_reply_spec candsW
  refine ⟨?_, h.2.1 cGood (by decide), h.2.2 urlReply envReply (by decide) rfl rfl rfl rfl rfl⟩
  exact h.1.mpr ⟨cGood, by decide, by decide⟩

/-- C5: missing required input files, or missing or empty auth fields,
give exit code 1 with no browser acquired and no output written, in
both the scraper and the dispatcher; when the startup checks pass, the
process acquires the browser and a completed run exits with code 0. -/
theorem startup_gate (fs : FS) (envs : List ScrapeEnv) (fuel : Nat)
    (denvs : Nat → ReplyEnv) :
    ((fs.auth = none ∨
        ∃ a, fs.auth = some a ∧
          (jsTruthy a.auth_token = false ∨ jsTruthy a.ct0 = false)) →
      scraperRun fs envs fuel = some ⟨1, false, false⟩ ∧
        dispatcherRun fs denvs = ⟨1, false, []⟩) ∧
    ((fs.tweetsFile = none ∨ fs.commentsFile = none) →
      dispatcherRun fs denvs = ⟨1, false, []⟩) ∧
    (∀ a, scraperStartup fs = .ok a → ∀ r, scraperRun fs envs fuel = some r →
      r.exitCode = 0 ∧ r.browserAcquired = true) ∧
    (∀ x, dispatcherStartup fs = .ok x →
      (dispatcherRun fs denvs).exitCode = 0 ∧
        (dispatcherRun fs denvs).browserAcquired = true) := by
  refine ⟨?_, ?_, ?_, ?_⟩
  · intro h
    have hscr : scraperStartup fs = .error 1 := by
      rcases h with hn | ⟨a, ha, hbad⟩
      · simp [scraperStartup, hn]
      · rcases hbad with h1 | h1 <;> simp [scraperStartup, ha, h1]
    have hd : dispatcherStartup fs = .error 1 := by
      rcases htf : fs.tweetsFile with _ | tc
      · simp [dispatcherStartup, htf]
      · rcases hcf : fs.commentsFile with _ | cc
        · simp [dispatcherStartup, htf, hcf]
        · rcases h with hn | ⟨a, ha, hbad⟩
          · simp [dispatcherStartup, htf, hcf, hn]
          · rcases hbad with h1 | h1 <;> simp [dispatcherStartup, htf, hcf, ha, h1]
    constructor
    · simp [scraperRun, hscr]
    · simp [dispatcherRun, hd]
  · intro h
    have hd : dispatcherStartup fs = .error 1 := by
      rcases h with htf | hcf
      · simp [dispatcherStartup, htf]
      · rcases htf : fs.tweetsFile with _ | tc
        · simp [dispatcherStartup, htf]
        · simp [dispatcherStartup, htf, hcf]
    simp [dispatcherRun, hd]
  · intro a ha r hr
    unfold scraperRun at hr
    rw [ha] at hr
    rcases Option.map_eq_some'.mp hr with ⟨out, -, rfl⟩
    exact ⟨rfl, rfl⟩
  · intro x hx
    rcases x with ⟨tc, cc, a⟩
    unfold dispatcherRun
    rw [hx]
    exact ⟨rfl, rfl⟩

/-- C5 witness: a file system with everything missing, and one with
all required files well-formed. -/
theorem startup_gate_witness :
    scraperRun fsBad [] 1 = some ⟨1, false, false⟩ ∧
    dispatcherRun fsBad denvNull = ⟨1, false, []⟩ ∧
    ((⟨0, true, false⟩ : RunResult).exitCode = 0 ∧
      (⟨0, true, false⟩ : RunResult).browserAcquired = true) ∧
    ((dispatcherRun fsGood denvNull).exitCode = 0 ∧
      (dispatcherRun fsGood denvNull).browserAcquired = true) := by
  have hbad := (startup_gate fsBad [] 1 denvNull).1 (Or.inl rfl)
  have h3 := (startup_gate fsGood [] 1 denvNull).2.2.1 ⟨some ("tok"), some ("c0")⟩
    rfl ⟨0, true, false⟩ (by decide)
  have h4 := (startup_gate fsGood [] 1 denvNull).2.2.2 ("", "hi", ⟨some ("tok"), some ("c0")⟩) rfl
  exact ⟨hbad.1, hbad.2, h3, h4⟩

/-- C8: for every random draw `r` in `[0,1)` the inter-item delay
`floor(r*7000)+5000` lies in `[5000, 12000)` milliseconds. -/
theorem reply_delay_range (r : ℚ) (h0 : 0 ≤ r) (h1 : r < 1) :
    5000 ≤ replyDelay r ∧ replyDelay r < 12000 := by
  unfold replyDelay
  constructor
  · have hf : (0 : ℤ) ≤ ⌊r * 7000⌋ := Int.floor_nonneg.mpr (by positivity)
    omega
  · have h2 : r * 7000 < 7000 := by nlinarith
    have hf : ⌊r * 7000⌋ < 7000 := by
      rw [Int.floor_lt]
      exact_mod_cast h2
    omega

/-- C8 witness: the draw one half gives a delay of 8500 ms. -/
theorem reply_delay_range_witness :
    5000 ≤ replyDelay (1 / 2) ∧ replyDelay (1 / 2) < 12000 :=
  reply_delay_range (1 / 2) (by norm_num) (by norm_num)

/-- C10: every line read from the dispatcher input files is a trimmed
original line and is non-blank; the empty string is never among the
parsed lines, so a blank line never produces a reply attempt; and
given at least one non-blank pool line, the selected reply text is a
non-empty member of the pool. -/
theorem lines_trimmed_nonblank (s : String) (r : ℚ) :
    (∀ l ∈ parseLines s, l ≠ "" ∧ ∃ raw ∈ jsSplitNl s, l = jsTrim raw) ∧
    ("" ∉ parseLines s) ∧
    (0 ≤ r → r < 1 → parseLines s ≠ [] →
      ∃ t, getCannedReply (parseLines s) r = some t ∧ t ∈ parseLines s ∧ t ≠ "") := by
  have hmem : ∀ l ∈ parseLines s, l ≠ "" ∧ ∃ raw ∈ jsSplitNl s, l = jsTrim raw := by
    intro l hl
    unfold parseLines at hl
    have h1 := List.mem_filter.mp hl
    rcases List.mem_map.mp h1.1 with ⟨raw, hraw, rfl⟩
    have h2 : (jsTrim raw != "") = true := h1.2
    exact ⟨bne_iff_ne.mp h2, raw, hraw, rfl⟩
  refine ⟨hmem, ?_, ?_⟩
  · intro h0
    exact (hmem "" h0).1 rfl
  · intro hr0 hr1 hne
    have hnpos : 0 < (parseLines s).length := List.length_pos.mpr hne
    have hq : (0 : ℚ) < ((parseLines s).length : ℚ) := by exact_mod_cast hnpos
    have hfl : (0 : ℤ) ≤ ⌊r * ((parseLines s).length : ℚ)⌋ :=
      Int.floor_nonneg.mpr (by positivity)
    have hfu : ⌊r * ((parseLines s).length : ℚ)⌋ < ((parseLines s).length : ℤ) := by
      rw [Int.floor_lt]
      push_cast
      nlinarith
    have hidx : Int.toNat ⌊r * ((parseLines s).length : ℚ)⌋ < (parseLines s).length := by
      omega
    refine ⟨(parseLines s).get ⟨_, hidx⟩, ?_, List.get_mem _ _ _,
      (hmem _ (List.get_mem _ _ _)).1⟩
    unfold getCannedReply
    exact List.get?_eq_get hidx

/-- C10 witness: an input with a blank line and padded lines, and the
draw one half. -/
theorem lines_trimmed_nonblank_witness :
    ("" ∉ parseLines ("a\n\n b ")) ∧
    ∃ t, getCannedReply (parseLines ("a\n\n b ")) (1 / 2) = some t ∧
      t ∈ parseLines ("a\n\n b ") ∧ t ≠ "" :=
  ⟨(lines_trimmed_nonblank ("a\n\n b ") (1 / 2)).2.1,
    (lines_trimmed_nonblank ("a\n\n b ") (1 / 2)).2.2 (by norm_num) (by norm_num)
      (by decide)⟩
